import Mathlib

/-!
Verification development for the `foreachRDD` demo notebook.

The repository is a single notebook. Its code content is three pseudocode
snippets (two variants of `sendPartition` and a per-record variant) and one
non-executable demo cell. The connection pool that the pooled `sendPartition`
snippet calls (`ConnectionPool.getConnection` / `returnConnection`) is not
implemented in the repository; it is described only in the design document.
We therefore model the pool from that description, and embed the
`sendPartition` snippets and the demo cell text directly from the notebook.
-/

namespace CP

/-- Modelled from the spec: a Connection is an opaque handle with a unique
identifier and a last-used timestamp (creation timestamp elided: no spec
operation reads it). Open/closed state is tracked by the pool: a tracked
connection is open, a closed connection is recorded in the pool's closed set. -/
structure Conn where
  cid : Nat
  lastUsed : Nat
deriving DecidableEq

/-- Modelled from the spec: the error outcomes of pool operations
(ConnectionCreationError never arises in the model: creation always succeeds). -/
inductive PoolError where
  | poolClosed
  | invalidState
deriving DecidableEq

/-- Modelled from the spec: the pool state is the idle free-list, the set of
checked-out connections, the identifiers of connections that have been closed,
a counter supplying fresh identifiers, and the shutdown flag. -/
structure Pool where
  idle : List Conn
  checkedOut : List Conn
  closedIds : List Nat
  nextId : Nat
  isShutdown : Bool
deriving DecidableEq

/-- The pool starts empty: no connections are pre-warmed. -/
def emptyPool : Pool :=
  { idle := [], checkedOut := [], closedIds := [], nextId := 0, isShutdown := false }

/-- Modelled from the spec: acquire returns an idle connection if one exists,
otherwise lazily creates a new one; the returned connection is checked out and
its last-used timestamp updated. Fails with PoolClosedError after shutdown. -/
def acquire (now : Nat) (p : Pool) : Except PoolError (Conn × Pool) :=
  if p.isShutdown then .error .poolClosed
  else
    match p.idle with
    | c :: rest =>
        let d : Conn := { c with lastUsed := now }
        .ok (d, { p with idle := rest, checkedOut := d :: p.checkedOut })
    | [] =>
        let d : Conn := { cid := p.nextId, lastUsed := now }
        .ok (d, { p with checkedOut := d :: p.checkedOut, nextId := p.nextId + 1 })

/-- Modelled from the spec: release returns a checked-out connection to the
idle set; if the connection is broken the pool closes and discards it instead
of returning it to the idle set. Fails with InvalidStateError when the
connection is not currently checked out, PoolClosedError after shutdown. -/
def release (now : Nat) (broken : Bool) (c : Conn) (p : Pool) : Except PoolError Pool :=
  if p.isShutdown then .error .poolClosed
  else if p.checkedOut.any (fun d => d.cid == c.cid) then
    let rest := p.checkedOut.filter (fun d => d.cid != c.cid)
    if broken then
      .ok { p with checkedOut := rest, closedIds := c.cid :: p.closedIds }
    else
      .ok { p with checkedOut := rest, idle := { c with lastUsed := now } :: p.idle }
  else .error .invalidState

/-- An idle connection is stale when its idle duration exceeds the timeout. -/
def stale (timeout now : Nat) (c : Conn) : Bool :=
  timeout < now - c.lastUsed

/-- Modelled from the spec: evictIdle scans the idle connections and closes and
removes exactly those idle for longer than the timeout. -/
def evictIdle (timeout now : Nat) (p : Pool) : Except PoolError Pool :=
  if p.isShutdown then .error .poolClosed
  else
    .ok { p with
      idle := p.idle.filter (fun c => ! stale timeout now c),
      closedIds := (p.idle.filter (stale timeout now)).map Conn.cid ++ p.closedIds }

/-- Modelled from the spec: shutdown closes all connections (idle and
checked-out) and clears the pool state; later operations fail with
PoolClosedError. -/
def shutdown (p : Pool) : Except PoolError Pool :=
  if p.isShutdown then .error .poolClosed
  else
    .ok { idle := [], checkedOut := [],
          closedIds := (p.idle ++ p.checkedOut).map Conn.cid ++ p.closedIds,
          nextId := p.nextId, isShutdown := true }

/-- One pool call, as issued by a caller. -/
inductive Op where
  | acquire (now : Nat)
  | release (now : Nat) (broken : Bool) (c : Conn)
  | evictIdle (timeout now : Nat)
  | shutdown
deriving DecidableEq

/-- Whether an op is an eviction or a shutdown (the two closing operations the
spec's state machine names). -/
def Op.isEvictOrShutdown : Op → Bool
  | .evictIdle _ _ => true
  | .shutdown => true
  | _ => false

/-- The pool state after one call: a failing call leaves the state unchanged. -/
def step (p : Pool) (op : Op) : Pool :=
  match op with
  | .acquire now =>
      match acquire now p with
      | .ok (_, q) => q
      | .error _ => p
  | .release now broken c =>
      match release now broken c p with
      | .ok q => q
      | .error _ => p
  | .evictIdle t now =>
      match evictIdle t now p with
      | .ok q => q
      | .error _ => p
  | .shutdown =>
      match shutdown p with
      | .ok q => q
      | .error _ => p

/-- The pool state after a sequence of calls starting from the empty pool. -/
def runOps (ops : List Op) : Pool :=
  ops.foldl step emptyPool

/-- Identifiers of the connections the pool currently tracks (idle and
checked out). -/
def trackedIds (p : Pool) : List Nat :=
  p.idle.map Conn.cid ++ p.checkedOut.map Conn.cid

/-- The pool invariant: tracked identifiers are pairwise distinct (in
particular no identifier is both idle and checked out), all tracked and closed
identifiers are below the fresh-id counter, and no closed identifier is still
tracked. -/
def WF (p : Pool) : Prop :=
  (trackedIds p).Nodup ∧
  (∀ i ∈ trackedIds p, i < p.nextId) ∧
  (∀ i ∈ p.closedIds, i < p.nextId) ∧
  (∀ i ∈ p.closedIds, i ∉ trackedIds p)

end CP

namespace Snippet

/-- Events observable in the per-partition (non-pooled) sendPartition snippet:
createNewConnection, connection.send(record), connection.close. Records are
modelled as naturals. -/
inductive NPEvent where
  | create
  | send (r : Nat)
  | close
deriving DecidableEq

/-- The send loop of the non-pooled snippet: sends records in iterator order;
a failing send raises, aborting the loop. Returns the send events attempted
(the failing attempt included) and whether the loop completed. -/
def sendLoopNP (sendOk : Nat → Bool) : List Nat → List NPEvent × Bool
  | [] => ([], true)
  | r :: rs =>
      if sendOk r then
        let (es, ok) := sendLoopNP sendOk rs
        (NPEvent.send r :: es, ok)
      else
        ([NPEvent.send r], false)

/-- The per-partition (non-pooled) sendPartition snippet, embedded from the
notebook: createNewConnection, then send every record of the iterator, then
close. There is no exception handler, so when a send raises, close is never
reached. Named after the source function sendPartition (per-partition
variant). -/
def sendPartitionNP (sendOk : Nat → Bool) (iter : List Nat) : List NPEvent × Bool :=
  let (es, ok) := sendLoopNP sendOk iter
  if ok then (NPEvent.create :: es ++ [NPEvent.close], true)
  else (NPEvent.create :: es, false)

/-- Events observable in the pooled sendPartition snippet:
ConnectionPool.getConnection, connection.send(record),
ConnectionPool.returnConnection. -/
inductive PEvent where
  | getConnection
  | send (r : Nat)
  | returnConnection
deriving DecidableEq

/-- The send loop of the pooled snippet, as in sendLoopNP. -/
def sendLoopP (sendOk : Nat → Bool) : List Nat → List PEvent × Bool
  | [] => ([], true)
  | r :: rs =>
      if sendOk r then
        let (es, ok) := sendLoopP sendOk rs
        (PEvent.send r :: es, ok)
      else
        ([PEvent.send r], false)

/-- The pooled sendPartition snippet, embedded from the notebook:
getConnection, then send every record of the iterator, then returnConnection.
There is no try/finally, so when a send raises, returnConnection is never
reached. Named after the source function sendPartition (pooled variant). -/
def sendPartitionPool (sendOk : Nat → Bool) (iter : List Nat) : List PEvent × Bool :=
  let (es, ok) := sendLoopP sendOk iter
  if ok then (PEvent.getConnection :: es ++ [PEvent.returnConnection], true)
  else (PEvent.getConnection :: es, false)

end Snippet

namespace DemoCell

/-- The code lines of the notebook's demo cell, verbatim (blank lines kept). -/
def demoCell : List String :=
  [ "scc = Streamingcontext(\"local[2]\",\"Statefulwordcount\",Seconds(10))",
    "",
    "myFile = scc.sparkContext.textFile(\"..data/newFile.txt\")",
    "wordspair = myFile.flatMap(lambda row: row.split(\" \")).map(lambda x: (x, 1)).reduceByKey(lambda x,y : x + y)",
    "",
    "oldwordcount = wordspair.reduceByKey(lambda x,y : x + y)",
    "",
    "lines = scc.socketTextStream(\"192.168.56.101\", 9999)",
    "",
    "words = lines.flatMap( .split(\" \"))",
    "pairs = words.map(lambda word: (word, 1))",
    "wordCounts = pairs.reduceByKey(_ + _)",
    "",
    "joinRDD = wordcounts.transform(lambda rdd: rdd.join(wordspair).map(lambda (word, (oldCount, newCount)): (word, oldCount + newCount)))",
    "",
    "joinRDD.print()",
    "ssc.start()",
    "ssc.awaitTermination()" ]

/-- Identifier characters of the demo cell's language (letters, digits,
underscore). -/
def isIdentChar (c : Char) : Bool :=
  c.isAlphanum || c = Char.ofNat 95

/-- Splits a character list into maximal identifier-character runs; acc holds
the current run reversed. -/
def tokensAux : List Char → List Char → List String
  | [], acc => if acc.isEmpty then [] else [String.mk acc.reverse]
  | c :: cs, acc =>
      if isIdentChar c then tokensAux cs (c :: acc)
      else if acc.isEmpty then tokensAux cs []
      else String.mk acc.reverse :: tokensAux cs []

/-- The identifier-like tokens of a line. -/
def tokens (s : String) : List String :=
  tokensAux s.toList []

/-- The name a line binds, when the line is a simple assignment statement: a
leading identifier followed by a space, a single equals sign and a space. -/
def assignedName (l : String) : Option String :=
  let cs := l.toList
  let name := cs.takeWhile isIdentChar
  let rest := cs.drop name.length
  if name.isEmpty then none
  else if (name.headD (Char.ofNat 95)).isDigit then none
  else
    match rest with
    | ' ' :: '=' :: ' ' :: _ => some name.asString
    | _ => none

/-- The names the demo cell binds: left-hand sides of its simple assignment
statements. -/
def assignedNames (cell : List String) : List String :=
  cell.filterMap assignedName

/-- Whether a line mentions the given name as a whole token. -/
def referencesName (l name : String) : Bool :=
  (tokens l).contains name

/-- Whether the first character list is a prefix of the second. -/
def isPrefixL : List Char → List Char → Bool
  | [], _ => true
  | _ :: _, [] => false
  | a :: as, b :: bs => a == b && isPrefixL as bs

/-- Whether the first character list occurs contiguously in the second. -/
def containsSubL (pat : List Char) : List Char → Bool
  | [] => isPrefixL pat []
  | c :: rest => isPrefixL pat (c :: rest) || containsSubL pat rest

/-- Whether pat occurs as a substring of s. -/
def containsSub (pat s : String) : Bool :=
  containsSubL pat.toList s.toList

/-- The demo cell's join line (the one mentioning wordcounts and the
tuple-unpacking lambda). -/
def joinLine : String :=
  "joinRDD = wordcounts.transform(lambda rdd: rdd.join(wordspair).map(lambda (word, (oldCount, newCount)): (word, oldCount + newCount)))"

/-- The demo cell's flatMap line (the one with a bare attribute reference in
argument position). -/
def flatMapLine : String :=
  "words = lines.flatMap( .split(\" \"))"

/-- The demo cell's reduceByKey line with Scala-style placeholder syntax. -/
def wordCountsLine : String :=
  "wordCounts = pairs.reduceByKey(_ + _)"

end DemoCell

deriving instance DecidableEq for Except

/-!  Theorems settling the claims.  -/

/-- C3: end-to-end reuse scenario. From the empty pool, acquire at time 0
creates connection id 0; after release, acquire at time 2 returns the same
connection id 0 and the fresh-id counter stays at 1 (no new connection is
created); after a second release at time 3, evictIdle with timeout 0 at time 4
closes id 0 and removes it from the pool; the next acquire creates a fresh
connection id 1, different from id 0. -/
theorem C3_reuse_scenario :
    CP.acquire 0 CP.emptyPool
      = Except.ok (⟨0, 0⟩, ⟨[], [⟨0, 0⟩], [], 1, false⟩) ∧
    CP.release 1 false ⟨0, 0⟩ ⟨[], [⟨0, 0⟩], [], 1, false⟩
      = Except.ok ⟨[⟨0, 1⟩], [], [], 1, false⟩ ∧
    CP.acquire 2 ⟨[⟨0, 1⟩], [], [], 1, false⟩
      = Except.ok (⟨0, 2⟩, ⟨[], [⟨0, 2⟩], [], 1, false⟩) ∧
    CP.release 3 false ⟨0, 2⟩ ⟨[], [⟨0, 2⟩], [], 1, false⟩
      = Except.ok ⟨[⟨0, 3⟩], [], [], 1, false⟩ ∧
    CP.evictIdle 0 4 ⟨[⟨0, 3⟩], [], [], 1, false⟩
      = Except.ok ⟨[], [], [0], 1, false⟩ ∧
    CP.acquire 5 ⟨[], [], [0], 1, false⟩
      = Except.ok (⟨1, 5⟩, ⟨[], [⟨1, 5⟩], [0], 2, false⟩) ∧
    (1 : Nat) ≠ 0 := by
  decide

/-- C9: the demo cell is not an executable program: it assigns scc but calls
methods on the unassigned name ssc, assigns wordCounts but reads the
unassigned name wordcounts, and contains the malformed fragments
"lines.flatMap( .split(...))" (bare attribute reference in argument
position), the Scala-style placeholder expression "_ + _", and a
Python-2-only tuple-unpacking lambda "lambda (word, ...". -/
theorem C9_demo_cell_not_executable :
    "scc" ∈ DemoCell.assignedNames DemoCell.demoCell ∧
    "ssc" ∉ DemoCell.assignedNames DemoCell.demoCell ∧
    "ssc.start()" ∈ DemoCell.demoCell ∧
    DemoCell.referencesName "ssc.start()" "ssc" = true ∧
    "ssc.awaitTermination()" ∈ DemoCell.demoCell ∧
    "wordCounts" ∈ DemoCell.assignedNames DemoCell.demoCell ∧
    "wordcounts" ∉ DemoCell.assignedNames DemoCell.demoCell ∧
    DemoCell.joinLine ∈ DemoCell.demoCell ∧
    DemoCell.referencesName DemoCell.joinLine "wordcounts" = true ∧
    DemoCell.flatMapLine ∈ DemoCell.demoCell ∧
    DemoCell.containsSub "( ." DemoCell.flatMapLine = true ∧
    DemoCell.wordCountsLine ∈ DemoCell.demoCell ∧
    DemoCell.containsSub "_ + _" DemoCell.wordCountsLine = true ∧
    DemoCell.containsSub "lambda (word," DemoCell.joinLine = true := by
  decide

/-- Helper: when every send succeeds, the non-pooled send loop emits exactly
one send event per record, in iterator order, and completes. -/
theorem Snippet.sendLoopNP_all (sendOk : Nat → Bool) (iter : List Nat)
    (h : iter.all sendOk = true) :
    Snippet.sendLoopNP sendOk iter = (iter.map Snippet.NPEvent.send, true) := by
  induction iter with
  | nil => rfl
  | cons r rs ih =>
      simp only [List.all_cons, Bool.and_eq_true] at h
      simp [Snippet.sendLoopNP, h.1, ih h.2]

/-- Helper: when every send succeeds, the pooled send loop emits exactly one
send event per record, in iterator order, and completes. -/
theorem Snippet.sendLoopP_all (sendOk : Nat → Bool) (iter : List Nat)
    (h : iter.all sendOk = true) :
    Snippet.sendLoopP sendOk iter = (iter.map Snippet.PEvent.send, true) := by
  induction iter with
  | nil => rfl
  | cons r rs ih =>
      simp only [List.all_cons, Bool.and_eq_true] at h
      simp [Snippet.sendLoopP, h.1, ih h.2]

/-- C10: in the per-partition (non-pooled) sendPartition snippet, on a finite
iterator where no send raises, the event trace is exactly one
createNewConnection, then one send per record in iterator order, then one
close — one connection per partition regardless of the number of records,
including zero. -/
theorem C10_per_partition_single_connection (sendOk : Nat → Bool) (iter : List Nat)
    (h : iter.all sendOk = true) :
    (Snippet.sendPartitionNP sendOk iter).1
      = Snippet.NPEvent.create :: iter.map Snippet.NPEvent.send ++ [Snippet.NPEvent.close] ∧
    (Snippet.sendPartitionNP sendOk iter).1.count Snippet.NPEvent.create = 1 ∧
    (Snippet.sendPartitionNP sendOk iter).1.count Snippet.NPEvent.close = 1 ∧
    (Snippet.sendPartitionNP sendOk iter).2 = true := by
  have hl := Snippet.sendLoopNP_all sendOk iter h
  have hc : Snippet.NPEvent.create ∉ iter.map Snippet.NPEvent.send := by simp
  have hd : Snippet.NPEvent.close ∉ iter.map Snippet.NPEvent.send := by simp
  refine ⟨by simp [Snippet.sendPartitionNP, hl], ?_, ?_, by simp [Snippet.sendPartitionNP, hl]⟩
  · simp [Snippet.sendPartitionNP, hl, List.count_cons, List.count_append,
      List.count_eq_zero.mpr hc]
  · simp [Snippet.sendPartitionNP, hl, List.count_cons, List.count_append,
      List.count_eq_zero.mpr hd]

/-- Witness for C10: the empty iterator and a two-record iterator with
always-succeeding sends. -/
theorem C10_per_partition_single_connection_witness :
    ([3, 4].all (fun _ => true) = true) ∧
    ((Snippet.sendPartitionNP (fun _ => true) [3, 4]).1
      = Snippet.NPEvent.create :: [3, 4].map Snippet.NPEvent.send ++ [Snippet.NPEvent.close] ∧
     (Snippet.sendPartitionNP (fun _ => true) [3, 4]).1.count Snippet.NPEvent.create = 1 ∧
     (Snippet.sendPartitionNP (fun _ => true) [3, 4]).1.count Snippet.NPEvent.close = 1 ∧
     (Snippet.sendPartitionNP (fun _ => true) [3, 4]).2 = true) :=
  ⟨by decide, C10_per_partition_single_connection (fun _ => true) [3, 4] (by decide)⟩

/-- C8 counterexample: in the pooled sendPartition snippet, when the send of
record 0 fails mid-partition (after record 1 succeeded, record 2 never
attempted), the trace ends at the failing send: getConnection was called but
returnConnection is never called, so release does not happen on the failing
exit path. -/
theorem C8_counterexample :
    (Snippet.sendPartitionPool (fun r => r != 0) [1, 0, 2]).1
      = [Snippet.PEvent.getConnection, Snippet.PEvent.send 1, Snippet.PEvent.send 0] ∧
    (Snippet.sendPartitionPool (fun r => r != 0) [1, 0, 2]).1.count
        Snippet.PEvent.returnConnection = 0 := by
  decide

/-- C8 (amended): the pooled sendPartition snippet calls getConnection exactly
once, and on every partition where no send raises it calls returnConnection
exactly once, after all the sends; when a send raises, the snippet has no
try/finally, so returnConnection is not called on that path (see the
counterexample). -/
theorem C8_bracket_discipline_amended (sendOk : Nat → Bool) (iter : List Nat)
    (h : iter.all sendOk = true) :
    (Snippet.sendPartitionPool sendOk iter).1
      = Snippet.PEvent.getConnection :: iter.map Snippet.PEvent.send
          ++ [Snippet.PEvent.returnConnection] ∧
    (Snippet.sendPartitionPool sendOk iter).1.count Snippet.PEvent.getConnection = 1 ∧
    (Snippet.sendPartitionPool sendOk iter).1.count Snippet.PEvent.returnConnection = 1 := by
  have hl := Snippet.sendLoopP_all sendOk iter h
  have hg : Snippet.PEvent.getConnection ∉ iter.map Snippet.PEvent.send := by simp
  have hr : Snippet.PEvent.returnConnection ∉ iter.map Snippet.PEvent.send := by simp
  refine ⟨by simp [Snippet.sendPartitionPool, hl], ?_, ?_⟩
  · simp [Snippet.sendPartitionPool, hl, List.count_cons, List.count_append,
      List.count_eq_zero.mpr hg]
  · simp [Snippet.sendPartitionPool, hl, List.count_cons, List.count_append,
      List.count_eq_zero.mpr hr]

/-- Witness for C8: a two-record iterator with always-succeeding sends. -/
theorem C8_bracket_discipline_amended_witness :
    ([7, 8].all (fun _ => true) = true) ∧
    ((Snippet.sendPartitionPool (fun _ => true) [7, 8]).1
      = Snippet.PEvent.getConnection :: [7, 8].map Snippet.PEvent.send
          ++ [Snippet.PEvent.returnConnection] ∧
     (Snippet.sendPartitionPool (fun _ => true) [7, 8]).1.count
        Snippet.PEvent.getConnection = 1 ∧
     (Snippet.sendPartitionPool (fun _ => true) [7, 8]).1.count
        Snippet.PEvent.returnConnection = 1) :=
  ⟨by decide, C8_bracket_discipline_amended (fun _ => true) [7, 8] (by decide)⟩

/-- Helper: packaging the pool invariant. -/
theorem CP.WF_mk {p : CP.Pool} (h1 : (CP.trackedIds p).Nodup)
    (h2 : ∀ i ∈ CP.trackedIds p, i < p.nextId)
    (h3 : ∀ i ∈ p.closedIds, i < p.nextId)
    (h4 : ∀ i ∈ p.closedIds, i ∉ CP.trackedIds p) : CP.WF p :=
  ⟨h1, h2, h3, h4⟩

/-- Helper: every pool operation preserves the pool invariant. -/
theorem CP.WF_step (p : CP.Pool) (op : CP.Op) (hw : CP.WF p) : CP.WF (CP.step p op) := by
  obtain ⟨hnd, hbt, hbc, hdc⟩ := hw
  obtain ⟨hI, hO, hIJ⟩ := List.nodup_append.mp
    (show (p.idle.map CP.Conn.cid ++ p.checkedOut.map CP.Conn.cid).Nodup from hnd)
  cases op with
  | acquire now =>
      cases hs : p.isShutdown with
      | true =>
          have hq : CP.step p (CP.Op.acquire now) = p := by simp [CP.step, CP.acquire, hs]
          rw [hq]; exact ⟨hnd, hbt, hbc, hdc⟩
      | false =>
          cases hi : p.idle with
          | nil =>
              have hq : CP.step p (CP.Op.acquire now) =
                  { p with checkedOut := ⟨p.nextId, now⟩ :: p.checkedOut,
                           nextId := p.nextId + 1 } := by
                simp [CP.step, CP.acquire, hs, hi]
              rw [hq]
              have hti : CP.trackedIds
                  { p with checkedOut := ⟨p.nextId, now⟩ :: p.checkedOut,
                           nextId := p.nextId + 1 }
                  = p.nextId :: p.checkedOut.map CP.Conn.cid := by
                simp [CP.trackedIds, hi]
              refine CP.WF_mk ?_ ?_ ?_ ?_
              · rw [hti]
                refine List.nodup_cons.mpr ⟨?_, hO⟩
                intro hmem
                exact Nat.lt_irrefl _ (hbt _ (List.mem_append_right _ hmem))
              · rw [hti]
                intro i him
                rcases List.mem_cons.mp him with rfl | hmem
                · exact Nat.lt_succ_self _
                · exact Nat.lt_succ_of_lt (hbt _ (List.mem_append_right _ hmem))
              · intro i hic
                exact Nat.lt_succ_of_lt (hbc i hic)
              · intro i hic
                rw [hti]
                intro him
                rcases List.mem_cons.mp him with rfl | hmem
                · exact Nat.lt_irrefl _ (hbc _ hic)
                · exact hdc i hic (List.mem_append_right _ hmem)
          | cons a rest =>
              have hq : CP.step p (CP.Op.acquire now) =
                  { p with idle := rest,
                           checkedOut := { a with lastUsed := now } :: p.checkedOut } := by
                simp [CP.step, CP.acquire, hs, hi]
              rw [hq]
              have hperm : List.Perm
                  (CP.trackedIds
                    { p with idle := rest,
                             checkedOut := { a with lastUsed := now } :: p.checkedOut })
                  (CP.trackedIds p) := by
                simp only [CP.trackedIds, hi, List.map_cons, List.cons_append]
                exact List.perm_middle
              refine CP.WF_mk (hperm.nodup_iff.mpr hnd) ?_ hbc ?_
              · intro i him
                exact hbt i (hperm.mem_iff.mp him)
              · intro i hic him
                exact hdc i hic (hperm.mem_iff.mp him)
  | release now broken c =>
      cases hs : p.isShutdown with
      | true =>
          have hq : CP.step p (CP.Op.release now broken c) = p := by
            simp [CP.step, CP.release, hs]
          rw [hq]; exact ⟨hnd, hbt, hbc, hdc⟩
      | false =>
          cases hA : p.checkedOut.any (fun d => d.cid == c.cid) with
          | false =>
              have hq : CP.step p (CP.Op.release now broken c) = p := by
                simp [CP.step, CP.release, hs, hA]
              rw [hq]; exact ⟨hnd, hbt, hbc, hdc⟩
          | true =>
              have hcin : c.cid ∈ p.checkedOut.map CP.Conn.cid := by
                rcases List.any_eq_true.mp hA with ⟨d, hd, hdc2⟩
                exact List.mem_map.mpr ⟨d, hd, by simpa using hdc2⟩
              have hsubO : List.Sublist
                  ((p.checkedOut.filter (fun d => d.cid != c.cid)).map CP.Conn.cid)
                  (p.checkedOut.map CP.Conn.cid) :=
                (List.filter_sublist _).map _
              have hOFne : ∀ i ∈ (p.checkedOut.filter
                  (fun d => d.cid != c.cid)).map CP.Conn.cid, i ≠ c.cid := by
                intro i hi2
                rcases List.mem_map.mp hi2 with ⟨d, hd, rfl⟩
                have := (List.mem_filter.mp hd).2
                simpa using this
              cases broken with
              | true =>
                  have hq : CP.step p (CP.Op.release now true c) =
                      { p with checkedOut := p.checkedOut.filter (fun d => d.cid != c.cid),
                               closedIds := c.cid :: p.closedIds } := by
                    simp [CP.step, CP.release, hs, hA]
                  rw [hq]
                  have htr : List.Sublist
                      (CP.trackedIds
                        { p with checkedOut := p.checkedOut.filter (fun d => d.cid != c.cid),
                                 closedIds := c.cid :: p.closedIds })
                      (CP.trackedIds p) := by
                    simp only [CP.trackedIds]
                    exact (List.Sublist.refl _).append hsubO
                  refine CP.WF_mk (hnd.sublist htr) ?_ ?_ ?_
                  · intro i him
                    exact hbt i (htr.subset him)
                  · intro i hic
                    rcases List.mem_cons.mp hic with rfl | hold
                    · exact hbt _ (List.mem_append_right _ hcin)
                    · exact hbc i hold
                  · intro i hic him
                    rcases List.mem_cons.mp hic with rfl | hold
                    · rcases List.mem_append.mp him with hin | hin
                      · exact hIJ hin hcin
                      · exact hOFne _ hin rfl
                    · exact hdc i hold (htr.subset him)
              | false =>
                  have hq : CP.step p (CP.Op.release now false c) =
                      { p with checkedOut := p.checkedOut.filter (fun d => d.cid != c.cid),
                               idle := { c with lastUsed := now } :: p.idle } := by
                    simp [CP.step, CP.release, hs, hA]
                  rw [hq]
                  have hsub2 : List.Sublist
                      (p.idle.map CP.Conn.cid ++
                        (p.checkedOut.filter (fun d => d.cid != c.cid)).map CP.Conn.cid)
                      (CP.trackedIds p) :=
                    (List.Sublist.refl _).append hsubO
                  have hti : CP.trackedIds
                      { p with checkedOut := p.checkedOut.filter (fun d => d.cid != c.cid),
                               idle := { c with lastUsed := now } :: p.idle }
                      = c.cid :: (p.idle.map CP.Conn.cid ++
                          (p.checkedOut.filter (fun d => d.cid != c.cid)).map CP.Conn.cid) := by
                    simp [CP.trackedIds]
                  have hccid : c.cid ∉ p.idle.map CP.Conn.cid ++
                      (p.checkedOut.filter (fun d => d.cid != c.cid)).map CP.Conn.cid := by
                    intro hmem
                    rcases List.mem_append.mp hmem with hin | hin
                    · exact hIJ hin hcin
                    · exact hOFne _ hin rfl
                  refine CP.WF_mk ?_ ?_ hbc ?_
                  · rw [hti]
                    exact List.nodup_cons.mpr ⟨hccid, hnd.sublist hsub2⟩
                  · rw [hti]
                    intro i him
                    rcases List.mem_cons.mp him with rfl | hmem
                    · exact hbt _ (List.mem_append_right _ hcin)
                    · exact hbt i (hsub2.subset hmem)
                  · intro i hic
                    rw [hti]
                    intro him
                    rcases List.mem_cons.mp him with rfl | hmem
                    · exact hdc _ hic (List.mem_append_right _ hcin)
                    · exact hdc i hic (hsub2.subset hmem)
  | evictIdle t n =>
      cases hs : p.isShutdown with
      | true =>
          have hq : CP.step p (CP.Op.evictIdle t n) = p := by
            simp [CP.step, CP.evictIdle, hs]
          rw [hq]; exact ⟨hnd, hbt, hbc, hdc⟩
      | false =>
          have hq : CP.step p (CP.Op.evictIdle t n) =
              { p with idle := p.idle.filter (fun c => ! CP.stale t n c),
                       closedIds := (p.idle.filter (CP.stale t n)).map CP.Conn.cid
                         ++ p.closedIds } := by
            simp [CP.step, CP.evictIdle, hs]
          rw [hq]
          have htr : List.Sublist
              ((p.idle.filter (fun c => ! CP.stale t n c)).map CP.Conn.cid ++
                p.checkedOut.map CP.Conn.cid)
              (CP.trackedIds p) :=
            ((List.filter_sublist _).map _).append (List.Sublist.refl _)
          refine CP.WF_mk (hnd.sublist htr) ?_ ?_ ?_
          · intro i him
            exact hbt i (htr.subset him)
          · intro i hic
            rcases List.mem_append.mp hic with hnew | hold
            · rcases List.mem_map.mp hnew with ⟨e, he, rfl⟩
              exact hbt _ (List.mem_append_left _
                (List.mem_map_of_mem _ (List.mem_filter.mp he).1))
            · exact hbc i hold
          · intro i hic him
            rcases List.mem_append.mp hic with hnew | hold
            · rcases List.mem_map.mp hnew with ⟨e, he, rfl⟩
              obtain ⟨heM, heS⟩ := List.mem_filter.mp he
              rcases List.mem_append.mp him with hkeep | hout
              · rcases List.mem_map.mp hkeep with ⟨d, hd, hde⟩
                obtain ⟨hdM, hdK⟩ := List.mem_filter.mp hd
                have hde2 : d = e := List.inj_on_of_nodup_map hI hdM heM hde
                rw [hde2] at hdK
                rw [heS] at hdK
                simp at hdK
              · exact hIJ (List.mem_map_of_mem _ heM) hout
            · exact hdc i hold (htr.subset him)
  | shutdown =>
      cases hs : p.isShutdown with
      | true =>
          have hq : CP.step p CP.Op.shutdown = p := by
            simp [CP.step, CP.shutdown, hs]
          rw [hq]; exact ⟨hnd, hbt, hbc, hdc⟩
      | false =>
          have hq : CP.step p CP.Op.shutdown =
              { idle := [], checkedOut := [],
                closedIds := (p.idle ++ p.checkedOut).map CP.Conn.cid ++ p.closedIds,
                nextId := p.nextId, isShutdown := true } := by
            simp [CP.step, CP.shutdown, hs]
          rw [hq]
          refine CP.WF_mk ?_ ?_ ?_ ?_
          · simp [CP.trackedIds]
          · intro i him
            simp [CP.trackedIds] at him
          · intro i hic
            rcases List.mem_append.mp hic with hnew | hold
            · rw [List.map_append] at hnew
              exact hbt i hnew
            · exact hbc i hold
          · intro i hic
            simp [CP.trackedIds]

/-- Helper: the empty pool satisfies the pool invariant. -/
theorem CP.WF_emptyPool : CP.WF CP.emptyPool := by
  refine CP.WF_mk ?_ ?_ ?_ ?_ <;> simp [CP.trackedIds, CP.emptyPool]

/-- Helper: the invariant holds along any fold of pool operations. -/
theorem CP.WF_foldl (p : CP.Pool) (hw : CP.WF p) (ops : List CP.Op) :
    CP.WF (ops.foldl CP.step p) := by
  induction ops generalizing p with
  | nil => exact hw
  | cons op rest ih => exact ih _ (CP.WF_step p op hw)

/-- Helper: every pool state reachable from the empty pool satisfies the
invariant. -/
theorem CP.WF_runOps (ops : List CP.Op) : CP.WF (CP.runOps ops) :=
  CP.WF_foldl CP.emptyPool CP.WF_emptyPool ops

/-- C1: pool exclusivity invariant. After any sequence of pool calls starting
from the empty pool, the idle identifiers are pairwise distinct, the
checked-out identifiers are pairwise distinct (no two simultaneously
checked-out callers hold the same identifier), and no identifier is both idle
and checked out. -/
theorem C1_pool_exclusivity (ops : List CP.Op) :
    ((CP.runOps ops).idle.map CP.Conn.cid).Nodup ∧
    ((CP.runOps ops).checkedOut.map CP.Conn.cid).Nodup ∧
    List.Disjoint ((CP.runOps ops).idle.map CP.Conn.cid)
      ((CP.runOps ops).checkedOut.map CP.Conn.cid) := by
  obtain ⟨hnd, _, _, _⟩ := CP.WF_runOps ops
  exact List.nodup_append.mp hnd

/-- C2: acquire on an open pool always succeeds; it hands back the head of the
idle free-list (an existing idle connection, with the fresh-id counter
unchanged: no creation) when the idle set is non-empty, and creates a brand
new connection — with an identifier no checked-out connection carries — only
when the idle set is empty; in both cases the returned connection is checked
out and stamped with the current time. -/
theorem C2_acquire_lazy (now : Nat) (p : CP.Pool)
    (h : p.isShutdown = false)
    (hout : ∀ d ∈ p.checkedOut, d.cid < p.nextId) :
    ∃ c q, CP.acquire now p = Except.ok (c, q) ∧
      c.lastUsed = now ∧
      c ∈ q.checkedOut ∧
      q.idle = p.idle.tail ∧
      q.closedIds = p.closedIds ∧
      (p.idle ≠ [] → c.cid ∈ p.idle.map CP.Conn.cid ∧ q.nextId = p.nextId) ∧
      (p.idle = [] → c.cid = p.nextId ∧ q.nextId = p.nextId + 1 ∧
        ∀ d ∈ p.checkedOut, d.cid ≠ c.cid) := by
  cases hi : p.idle with
  | nil =>
      refine ⟨⟨p.nextId, now⟩,
        { p with checkedOut := ⟨p.nextId, now⟩ :: p.checkedOut, nextId := p.nextId + 1 },
        ?_, rfl, List.mem_cons_self _ _, ?_, rfl, ?_, ?_⟩
      · simp [CP.acquire, h, hi]
      · simp [hi]
      · intro hne; exact absurd rfl hne
      · intro _; exact ⟨rfl, rfl, fun d hd => Nat.ne_of_lt (hout d hd)⟩
  | cons a rest =>
      refine ⟨{ a with lastUsed := now },
        { p with idle := rest, checkedOut := { a with lastUsed := now } :: p.checkedOut },
        ?_, rfl, List.mem_cons_self _ _, ?_, rfl, ?_, ?_⟩
      · simp [CP.acquire, h, hi]
      · simp [hi]
      · intro _
        refine ⟨?_, rfl⟩
        show a.cid ∈ List.map CP.Conn.cid (a :: rest)
        exact List.mem_map_of_mem _ (List.mem_cons_self _ _)
      · intro hnil
        exact absurd hnil (List.cons_ne_nil a rest)

/-- Witness for C2: acquiring at time 2 from a pool whose free-list holds the
single idle connection 0. -/
theorem C2_acquire_lazy_witness :
    (CP.Pool.mk [⟨0, 1⟩] [] [] 1 false).isShutdown = false ∧
    (∀ d ∈ (CP.Pool.mk [⟨0, 1⟩] [] [] 1 false).checkedOut,
      d.cid < (CP.Pool.mk [⟨0, 1⟩] [] [] 1 false).nextId) ∧
    (∃ c q, CP.acquire 2 (CP.Pool.mk [⟨0, 1⟩] [] [] 1 false) = Except.ok (c, q) ∧
      c.lastUsed = 2 ∧
      c ∈ q.checkedOut ∧
      q.idle = (CP.Pool.mk [⟨0, 1⟩] [] [] 1 false).idle.tail ∧
      q.closedIds = (CP.Pool.mk [⟨0, 1⟩] [] [] 1 false).closedIds ∧
      ((CP.Pool.mk [⟨0, 1⟩] [] [] 1 false).idle ≠ [] →
        c.cid ∈ (CP.Pool.mk [⟨0, 1⟩] [] [] 1 false).idle.map CP.Conn.cid ∧
        q.nextId = (CP.Pool.mk [⟨0, 1⟩] [] [] 1 false).nextId) ∧
      ((CP.Pool.mk [⟨0, 1⟩] [] [] 1 false).idle = [] →
        c.cid = (CP.Pool.mk [⟨0, 1⟩] [] [] 1 false).nextId ∧
        q.nextId = (CP.Pool.mk [⟨0, 1⟩] [] [] 1 false).nextId + 1 ∧
        ∀ d ∈ (CP.Pool.mk [⟨0, 1⟩] [] [] 1 false).checkedOut, d.cid ≠ c.cid)) :=
  ⟨rfl, by decide, C2_acquire_lazy 2 (CP.Pool.mk [⟨0, 1⟩] [] [] 1 false) rfl (by decide)⟩

/-- C4: evictIdle on an open pool succeeds and closes and removes exactly the
idle connections idle for longer than the timeout: every such connection has
its identifier recorded closed and leaves the idle set, every idle connection
within the timeout stays in the idle set unchanged, the checked-out
connections are untouched, and nothing else gets closed. (The distinctness
hypothesis on idle identifiers holds in every reachable pool by the
exclusivity invariant.) -/
theorem C4_evictIdle_exact (timeout now : Nat) (p : CP.Pool)
    (h : p.isShutdown = false) (hnodup : (p.idle.map CP.Conn.cid).Nodup) :
    ∃ q, CP.evictIdle timeout now p = Except.ok q ∧
      q.checkedOut = p.checkedOut ∧ q.nextId = p.nextId ∧ q.isShutdown = false ∧
      (∀ c ∈ p.idle, CP.stale timeout now c = true →
        c.cid ∈ q.closedIds ∧ c.cid ∉ q.idle.map CP.Conn.cid) ∧
      (∀ c ∈ p.idle, CP.stale timeout now c = false → c ∈ q.idle) ∧
      (∀ c ∈ q.idle, c ∈ p.idle ∧ CP.stale timeout now c = false) ∧
      (∀ i ∈ q.closedIds,
        i ∈ p.closedIds ∨ ∃ c ∈ p.idle, CP.stale timeout now c = true ∧ c.cid = i) := by
  refine ⟨{ p with
            idle := p.idle.filter (fun c => ! CP.stale timeout now c),
            closedIds := (p.idle.filter (CP.stale timeout now)).map CP.Conn.cid
              ++ p.closedIds },
    by simp [CP.evictIdle, h], rfl, rfl, h, ?_, ?_, ?_, ?_⟩
  · intro c hc hs
    constructor
    · exact List.mem_append_left _ (List.mem_map_of_mem _ (List.mem_filter.mpr ⟨hc, hs⟩))
    · intro hmem
      rcases List.mem_map.mp hmem with ⟨d, hd, hdc⟩
      rcases List.mem_filter.mp hd with ⟨hdm, hdk⟩
      have : d = c := List.inj_on_of_nodup_map hnodup hdm hc hdc
      rw [this] at hdk
      rw [hs] at hdk
      simp at hdk
  · intro c hc hs
    exact List.mem_filter.mpr ⟨hc, by simp [hs]⟩
  · intro c hc
    rcases List.mem_filter.mp hc with ⟨hm, hk⟩
    exact ⟨hm, by simpa using hk⟩
  · intro i hi
    rcases List.mem_append.mp hi with hl | hr
    · rcases List.mem_map.mp hl with ⟨c, hc, hci⟩
      rcases List.mem_filter.mp hc with ⟨hcm, hcs⟩
      exact Or.inr ⟨c, hcm, hcs, hci⟩
    · exact Or.inl hr

/-- Witness for C4: evicting with timeout 3 at time 10 from a pool with a
stale idle connection (idle 10), a fresh idle connection (idle 1) and one
checked-out connection. -/
theorem C4_evictIdle_exact_witness :
    (CP.Pool.mk [⟨0, 0⟩, ⟨1, 9⟩] [⟨2, 5⟩] [] 3 false).isShutdown = false ∧
    ((CP.Pool.mk [⟨0, 0⟩, ⟨1, 9⟩] [⟨2, 5⟩] [] 3 false).idle.map CP.Conn.cid).Nodup ∧
    (∃ q, CP.evictIdle 3 10 (CP.Pool.mk [⟨0, 0⟩, ⟨1, 9⟩] [⟨2, 5⟩] [] 3 false)
        = Except.ok q ∧
      q.checkedOut = (CP.Pool.mk [⟨0, 0⟩, ⟨1, 9⟩] [⟨2, 5⟩] [] 3 false).checkedOut ∧
      q.nextId = (CP.Pool.mk [⟨0, 0⟩, ⟨1, 9⟩] [⟨2, 5⟩] [] 3 false).nextId ∧
      q.isShutdown = false ∧
      (∀ c ∈ (CP.Pool.mk [⟨0, 0⟩, ⟨1, 9⟩] [⟨2, 5⟩] [] 3 false).idle,
        CP.stale 3 10 c = true →
        c.cid ∈ q.closedIds ∧ c.cid ∉ q.idle.map CP.Conn.cid) ∧
      (∀ c ∈ (CP.Pool.mk [⟨0, 0⟩, ⟨1, 9⟩] [⟨2, 5⟩] [] 3 false).idle,
        CP.stale 3 10 c = false → c ∈ q.idle) ∧
      (∀ c ∈ q.idle,
        c ∈ (CP.Pool.mk [⟨0, 0⟩, ⟨1, 9⟩] [⟨2, 5⟩] [] 3 false).idle ∧
        CP.stale 3 10 c = false) ∧
      (∀ i ∈ q.closedIds,
        i ∈ (CP.Pool.mk [⟨0, 0⟩, ⟨1, 9⟩] [⟨2, 5⟩] [] 3 false).closedIds ∨
        ∃ c ∈ (CP.Pool.mk [⟨0, 0⟩, ⟨1, 9⟩] [⟨2, 5⟩] [] 3 false).idle,
          CP.stale 3 10 c = true ∧ c.cid = i)) :=
  ⟨rfl, by decide,
    C4_evictIdle_exact 3 10 (CP.Pool.mk [⟨0, 0⟩, ⟨1, 9⟩] [⟨2, 5⟩] [] 3 false) rfl (by decide)⟩

/-- C5: shutdown of an open pool succeeds, marks every connection the pool
tracked (idle or checked out) closed, keeps previously closed identifiers
closed, leaves the pool tracking nothing, and every subsequent pool operation
fails with PoolClosedError while leaving the state unchanged. -/
theorem C5_shutdown_terminal (p : CP.Pool) (h : p.isShutdown = false) :
    ∃ q, CP.shutdown p = Except.ok q ∧ q.isShutdown = true ∧
      (∀ c ∈ p.idle, c.cid ∈ q.closedIds) ∧
      (∀ c ∈ p.checkedOut, c.cid ∈ q.closedIds) ∧
      (∀ i ∈ p.closedIds, i ∈ q.closedIds) ∧
      CP.trackedIds q = [] ∧
      (∀ t, CP.acquire t q = Except.error CP.PoolError.poolClosed) ∧
      (∀ t b c, CP.release t b c q = Except.error CP.PoolError.poolClosed) ∧
      (∀ u t, CP.evictIdle u t q = Except.error CP.PoolError.poolClosed) ∧
      CP.shutdown q = Except.error CP.PoolError.poolClosed ∧
      (∀ op, CP.step q op = q) := by
  refine ⟨{ idle := [], checkedOut := [],
            closedIds := (p.idle ++ p.checkedOut).map CP.Conn.cid ++ p.closedIds,
            nextId := p.nextId, isShutdown := true },
    by simp [CP.shutdown, h], rfl, ?_, ?_, ?_, rfl, ?_, ?_, ?_, ?_, ?_⟩
  · intro c hc
    exact List.mem_append_left _ (List.mem_map_of_mem _ (List.mem_append_left _ hc))
  · intro c hc
    exact List.mem_append_left _ (List.mem_map_of_mem _ (List.mem_append_right _ hc))
  · intro i hi
    exact List.mem_append_right _ hi
  · intro t; simp [CP.acquire]
  · intro t b c; simp [CP.release]
  · intro u t; simp [CP.evictIdle]
  · simp [CP.shutdown]
  · intro op
    cases op <;> simp [CP.step, CP.acquire, CP.release, CP.evictIdle, CP.shutdown]

/-- Witness for C5: shutting down a pool with one idle connection, one
checked-out connection and one already closed identifier. -/
theorem C5_shutdown_terminal_witness :
    (CP.Pool.mk [⟨0, 4⟩] [⟨1, 5⟩] [2] 3 false).isShutdown = false ∧
    (∃ q, CP.shutdown (CP.Pool.mk [⟨0, 4⟩] [⟨1, 5⟩] [2] 3 false) = Except.ok q ∧
      q.isShutdown = true ∧
      (∀ c ∈ (CP.Pool.mk [⟨0, 4⟩] [⟨1, 5⟩] [2] 3 false).idle, c.cid ∈ q.closedIds) ∧
      (∀ c ∈ (CP.Pool.mk [⟨0, 4⟩] [⟨1, 5⟩] [2] 3 false).checkedOut,
        c.cid ∈ q.closedIds) ∧
      (∀ i ∈ (CP.Pool.mk [⟨0, 4⟩] [⟨1, 5⟩] [2] 3 false).closedIds, i ∈ q.closedIds) ∧
      CP.trackedIds q = [] ∧
      (∀ t, CP.acquire t q = Except.error CP.PoolError.poolClosed) ∧
      (∀ t b c, CP.release t b c q = Except.error CP.PoolError.poolClosed) ∧
      (∀ u t, CP.evictIdle u t q = Except.error CP.PoolError.poolClosed) ∧
      CP.shutdown q = Except.error CP.PoolError.poolClosed ∧
      (∀ op, CP.step q op = q)) :=
  ⟨rfl, C5_shutdown_terminal (CP.Pool.mk [⟨0, 4⟩] [⟨1, 5⟩] [2] 3 false) rfl⟩

/-- C6: on an open pool, release fails with InvalidStateError exactly when the
given connection identifier is not checked out; when it is checked out, the
connection leaves the checked-out set, and the connection is put at the head
of the idle set for reuse when it is not broken, while a broken connection is
recorded closed and discarded (the idle set is untouched). -/
theorem C6_release_validity (now : Nat) (broken : Bool) (c : CP.Conn) (p : CP.Pool)
    (h : p.isShutdown = false) :
    (CP.release now broken c p = Except.error CP.PoolError.invalidState ↔
      c.cid ∉ p.checkedOut.map CP.Conn.cid) ∧
    (c.cid ∈ p.checkedOut.map CP.Conn.cid →
      ∃ q, CP.release now broken c p = Except.ok q ∧
        (∀ d ∈ q.checkedOut, d.cid ≠ c.cid) ∧
        q.nextId = p.nextId ∧ q.isShutdown = false ∧
        (broken = false → q.idle = { c with lastUsed := now } :: p.idle ∧
          q.closedIds = p.closedIds) ∧
        (broken = true → q.closedIds = c.cid :: p.closedIds ∧ q.idle = p.idle)) := by
  have hmem : ∀ d ∈ p.checkedOut.filter (fun d => d.cid != c.cid), d.cid ≠ c.cid := by
    intro d hd
    rcases List.mem_filter.mp hd with ⟨_, hk⟩
    simpa using hk
  cases hA : p.checkedOut.any (fun d => d.cid == c.cid) with
  | true =>
      have hin : c.cid ∈ p.checkedOut.map CP.Conn.cid := by
        rcases List.any_eq_true.mp hA with ⟨d, hd, hdc⟩
        exact List.mem_map.mpr ⟨d, hd, by simpa using hdc⟩
      constructor
      · constructor
        · intro herr
          exfalso
          cases broken <;> simp [CP.release, h, hA] at herr
        · intro hnm
          exact absurd hin hnm
      · intro _
        cases broken with
        | false =>
            refine ⟨{ p with
                      checkedOut := p.checkedOut.filter (fun d => d.cid != c.cid),
                      idle := { c with lastUsed := now } :: p.idle },
              ?_, hmem, rfl, h, fun _ => ⟨rfl, rfl⟩, fun hb => by simp at hb⟩
            simp [CP.release, h, hA]
        | true =>
            refine ⟨{ p with
                      checkedOut := p.checkedOut.filter (fun d => d.cid != c.cid),
                      closedIds := c.cid :: p.closedIds },
              ?_, hmem, rfl, h, fun hb => by simp at hb, fun _ => ⟨rfl, rfl⟩⟩
            simp [CP.release, h, hA]
  | false =>
      have hnm : c.cid ∉ p.checkedOut.map CP.Conn.cid := by
        intro hm
        rcases List.mem_map.mp hm with ⟨d, hd, hdc⟩
        have : p.checkedOut.any (fun d => d.cid == c.cid) = true :=
          List.any_eq_true.mpr ⟨d, hd, by simpa using hdc⟩
        rw [hA] at this
        cases this
      constructor
      · constructor
        · intro _; exact hnm
        · intro _; simp [CP.release, h, hA]
      · intro hm; exact absurd hm hnm

/-- Witness for C6: releasing the checked-out connection 1 as broken at time 6
discards it instead of returning it to the idle set. -/
theorem C6_release_validity_witness :
    (CP.Pool.mk [] [⟨1, 5⟩] [] 2 false).isShutdown = false ∧
    ((CP.release 6 true ⟨1, 5⟩ (CP.Pool.mk [] [⟨1, 5⟩] [] 2 false)
        = Except.error CP.PoolError.invalidState ↔
      (1 : Nat) ∉ (CP.Pool.mk [] [⟨1, 5⟩] [] 2 false).checkedOut.map CP.Conn.cid) ∧
    ((1 : Nat) ∈ (CP.Pool.mk [] [⟨1, 5⟩] [] 2 false).checkedOut.map CP.Conn.cid →
      ∃ q, CP.release 6 true ⟨1, 5⟩ (CP.Pool.mk [] [⟨1, 5⟩] [] 2 false)
          = Except.ok q ∧
        (∀ d ∈ q.checkedOut, d.cid ≠ (1 : Nat)) ∧
        q.nextId = 2 ∧ q.isShutdown = false ∧
        (true = false → q.idle = ⟨1, 6⟩ :: (CP.Pool.mk [] [⟨1, 5⟩] [] 2 false).idle ∧
          q.closedIds = (CP.Pool.mk [] [⟨1, 5⟩] [] 2 false).closedIds) ∧
        (true = true → q.closedIds = 1 :: (CP.Pool.mk [] [⟨1, 5⟩] [] 2 false).closedIds ∧
          q.idle = (CP.Pool.mk [] [⟨1, 5⟩] [] 2 false).idle))) :=
  ⟨rfl, C6_release_validity 6 true ⟨1, 5⟩ (CP.Pool.mk [] [⟨1, 5⟩] [] 2 false) rfl⟩

/-- Helper: no pool call ever removes an identifier from the closed set. -/
theorem CP.closedIds_mono (p : CP.Pool) (op : CP.Op) :
    p.closedIds ⊆ (CP.step p op).closedIds := by
  cases op with
  | acquire now =>
      cases hs : p.isShutdown
      · cases hi : p.idle <;> simp [CP.step, CP.acquire, hs, hi, List.Subset.refl]
      · simp [CP.step, CP.acquire, hs, List.Subset.refl]
  | release now broken c =>
      cases hs : p.isShutdown
      · cases hA : p.checkedOut.any (fun d => d.cid == c.cid)
        · simp [CP.step, CP.release, hs, hA, List.Subset.refl]
        · cases broken <;>
            simp [CP.step, CP.release, hs, hA, List.Subset.refl, List.subset_cons_self]
      · simp [CP.step, CP.release, hs, List.Subset.refl]
  | evictIdle t n =>
      cases hs : p.isShutdown <;>
        simp [CP.step, CP.evictIdle, hs, List.Subset.refl, List.subset_append_right]
  | shutdown =>
      cases hs : p.isShutdown <;>
        simp [CP.step, CP.shutdown, hs, List.Subset.refl, List.subset_append_right]

/-- Helper: the closed set only grows along any sequence of pool calls. -/
theorem CP.closedIds_mono_foldl (p : CP.Pool) (more : List CP.Op) :
    p.closedIds ⊆ (more.foldl CP.step p).closedIds := by
  induction more generalizing p with
  | nil => exact List.Subset.refl _
  | cons op rest ih => exact (CP.closedIds_mono p op).trans (ih (CP.step p op))

/-- C7 counterexample: a connection reaches the Closed state through a failing
release alone — acquire connection 0 and release it as broken: its identifier
is closed although the two-call sequence contains neither an evictIdle nor a
shutdown. This contradicts the claim that Closed is reachable only via
evictIdle or shutdown. -/
theorem C7_closed_via_broken_release_cex :
    (CP.runOps [CP.Op.acquire 0, CP.Op.release 1 true ⟨0, 0⟩]).closedIds = [0] ∧
    ([CP.Op.acquire 0, CP.Op.release 1 true ⟨0, 0⟩].all
      fun op => ! op.isEvictOrShutdown) = true := by
  decide

/-- C7 (amended): per-connection lifecycle. Closed is terminal: an identifier
once closed stays closed after any further calls and is never again tracked
(idle or checked out) by any reachable pool state; and Closed is reachable
only via evictIdle, shutdown, or a release of a broken connection — acquire
and a successful non-broken release never close anything. -/
theorem C7_lifecycle_amended :
    (∀ ops more : List CP.Op, ∀ i ∈ (CP.runOps ops).closedIds,
      i ∈ (CP.runOps (ops ++ more)).closedIds ∧
      i ∉ CP.trackedIds (CP.runOps (ops ++ more))) ∧
    (∀ (p : CP.Pool) (now : Nat), (CP.step p (CP.Op.acquire now)).closedIds = p.closedIds) ∧
    (∀ (p : CP.Pool) (now : Nat) (c : CP.Conn),
      (CP.step p (CP.Op.release now false c)).closedIds = p.closedIds) := by
  refine ⟨?_, ?_, ?_⟩
  · intro ops more i hic
    have hrun : CP.runOps (ops ++ more) = more.foldl CP.step (CP.runOps ops) := by
      simp [CP.runOps, List.foldl_append]
    have hmem : i ∈ (CP.runOps (ops ++ more)).closedIds := by
      rw [hrun]
      exact CP.closedIds_mono_foldl (CP.runOps ops) more hic
    obtain ⟨_, _, _, hdc⟩ := CP.WF_runOps (ops ++ more)
    exact ⟨hmem, hdc i hmem⟩
  · intro p now
    cases hs : p.isShutdown
    · cases hi : p.idle <;> simp [CP.step, CP.acquire, hs, hi]
    · simp [CP.step, CP.acquire, hs]
  · intro p now c
    cases hs : p.isShutdown
    · cases hA : p.checkedOut.any (fun d => d.cid == c.cid) <;>
        simp [CP.step, CP.release, hs, hA]
    · simp [CP.step, CP.release, hs]

/-- Witness for C7: identifier 0, closed by a broken release, remains closed
and untracked after a further acquire. -/
theorem C7_lifecycle_amended_witness :
    (0 ∈ (CP.runOps [CP.Op.acquire 0, CP.Op.release 1 true ⟨0, 0⟩]).closedIds) ∧
    (0 ∈ (CP.runOps ([CP.Op.acquire 0, CP.Op.release 1 true ⟨0, 0⟩]
        ++ [CP.Op.acquire 2])).closedIds ∧
      0 ∉ CP.trackedIds (CP.runOps ([CP.Op.acquire 0, CP.Op.release 1 true ⟨0, 0⟩]
        ++ [CP.Op.acquire 2]))) :=
  ⟨by decide,
    C7_lifecycle_amended.1 [CP.Op.acquire 0, CP.Op.release 1 true ⟨0, 0⟩]
      [CP.Op.acquire 2] 0 (by decide)⟩
